import Mathlib

/-!
Verification development for the wiki content-governance transform
(`src/middleware/verification.ts`).  Strings are modelled as Lean `String`
with the character-level work done on `List Char`.  JavaScript regular
expressions are embedded by their deterministic backtracking semantics,
derived pattern by pattern in the comments of each definition.
-/

namespace Verif

/-- Character class of JavaScript `\s` (and of `String.prototype.trim`). -/
def isJsWs (c : Char) : Bool :=
  c = ' ' || c = '\t' || c = '\n' || c = '\r' || c = '\x0b' || c = '\x0c' ||
  c = '\u00A0' || c = '\u1680' || ('\u2000' ≤ c && c ≤ '\u200A') ||
  c = '\u2028' || c = '\u2029' || c = '\u202F' || c = '\u205F' ||
  c = '\u3000' || c = '\uFEFF'

/-- ASCII lower-casing, the case folding used by the embedded `i`-flag
regexes (all pattern letters are ASCII). -/
def lowerAscii (c : Char) : Char :=
  if 'A' ≤ c && c ≤ 'Z' then Char.ofNat (c.toNat + 32) else c

/-- Lower-case a character list. -/
def lowerList (l : List Char) : List Char := l.map lowerAscii

/-- Case-insensitive prefix test: the pattern (already lower-case) is a
prefix of the text up to ASCII case. -/
def ciStarts : List Char → List Char → Bool
  | [], _ => true
  | _ :: _, [] => false
  | p :: ps, c :: cs => (lowerAscii c = p) && ciStarts ps cs

/-- Unanchored regex search: does the predicate hold at some suffix
(including the empty final suffix)? -/
def scanAny (p : List Char → Bool) : List Char → Bool
  | [] => p []
  | c :: t => p (c :: t) || scanAny p t

/-- `String.prototype.trim`: drop JS whitespace from both ends. -/
def trimChars (l : List Char) : List Char :=
  ((l.dropWhile isJsWs).reverse.dropWhile isJsWs).reverse

/-- `s.trim()` on strings. -/
def jsTrim (s : String) : String := ⟨trimChars s.data⟩

/-- `source.split('\n')` on character lists: the empty text gives one
empty line, a trailing newline yields a trailing empty line. -/
def splitNlChars : List Char → List (List Char)
  | [] => [[]]
  | c :: t =>
    if c = '\n' then [] :: splitNlChars t
    else
      match splitNlChars t with
      | h :: r => (c :: h) :: r
      | [] => [[c]]

/-- `source.split('\n')` on strings. -/
def splitNl (s : String) : List String := (splitNlChars s.data).map (⟨·⟩)

/-- `s.startsWith(p)` (case-sensitive). -/
def strStartsWith (s p : String) : Bool := p.data.isPrefixOf s.data

/-- `text.replace(/\|/g, '{{!}}')`: escape every pipe as the
five-character sequence used by the provenance wrapper. -/
def escapeChars : List Char → List Char
  | [] => []
  | c :: r =>
    if c = '|' then '\x7b' :: '\x7b' :: '!' :: '\x7d' :: '\x7d' :: escapeChars r
    else c :: escapeChars r

/-- `text.replace(/\{\{!\}\}/g, '|')`: scan left to right, replacing each
non-overlapping occurrence of the escape sequence by a pipe. -/
def unescapeChars : List Char → List Char
  | '\x7b' :: '\x7b' :: '!' :: '\x7d' :: '\x7d' :: r => '|' :: unescapeChars r
  | c :: t => c :: unescapeChars t
  | [] => []

/-- Tail of the wrapper pattern `[^}]+\}\}` after `|by=` was consumed,
past its first mandatory non-brace character: consume the rest of the
maximal brace-free run; succeed exactly when it is followed by two
closing braces (shrinking `[^}]+` can never make `\}` match, so the
backtracking regex accepts exactly at the run boundary). -/
def attribTail : List Char → Bool
  | '\x7d' :: '\x7d' :: _ => true
  | '\x7d' :: _ => false
  | _ :: r => attribTail r
  | [] => false

/-- The wrapper pattern `[^}]+\}\}`: at least one non-brace character,
then the run boundary followed by a double closing brace. -/
def attribOk : List Char → Bool
  | [] => false
  | c :: r => decide (c ≠ '\x7d') && attribTail r

/-- The part of the wrapper regex after the lazy payload group:
`\|by=[^}]+\}\}` (with `by` case-insensitive). -/
def tailOk : List Char → Bool
  | c₀ :: c₁ :: c₂ :: c₃ :: r =>
    (c₀ = '|' && lowerAscii c₁ = 'b' && lowerAscii c₂ = 'y' && c₃ = '=')
    && attribOk r
  | _ => false

/-- The lazy payload group `(.+?)` of the wrapper regex: grow the payload
one character at a time (never across a newline, since `.` does not match
newlines) until the tail pattern matches at the current point; return the
shortest such payload. -/
def goGroup (acc : List Char) : List Char → Option (List Char)
  | [] => none
  | c :: rest =>
    if c = '\n' then none
    else if tailOk rest then some (acc ++ [c])
    else goGroup (acc ++ [c]) rest

/-- Leftmost match of `/\{\{Bot_proposes\|(.+?)\|by=[^}]+\}\}/i`: scan
start positions left to right; where the literal head matches, find the
lazily shortest payload; if no payload completes there, move on.  Returns
the group-1 payload of the match. -/
def findMatch : List Char → Option (List Char)
  | [] => none
  | c :: rest =>
    if ciStarts "\x7b\x7bbot_proposes|".data (c :: rest) then
      match goGroup [] (List.drop 15 (c :: rest)) with
      | some g => some g
      | none => findMatch rest
    else findMatch rest

/-- `stripBotProposes`: if the wrapper regex matches, return group 1 with
the pipe escapes undone; otherwise return the text unchanged. -/
def stripBotProposes (text : String) : String :=
  match findMatch text.data with
  | some g => ⟨unescapeChars g⟩
  | none => text

/-- `normalizeLine`: strip a wrapper from the trimmed line and trim again. -/
def normalizeLine (line : String) : String :=
  jsTrim (stripBotProposes (jsTrim line))

/-- `buildLineSet`: the normalized non-blank lines of a prior revision,
used only through membership, hence modelled as a list. -/
def buildLineSet (source : String) : List String :=
  ((splitNl source).map normalizeLine).filter (fun l => l ≠ "")

/-- The fixed list of exempt namespaces. -/
def EXEMPT_NAMESPACES : List String :=
  ["Template", "Talk", "User", "MediaWiki", "Special", "PickiPedia"]

/-- Characters before the first colon, if any (`title.indexOf(':')` and
`title.substring(0, colonIndex)`). -/
def beforeColon : List Char → Option (List Char)
  | [] => none
  | c :: t =>
    if c = ':' then some []
    else
      match beforeColon t with
      | some ns => some (c :: ns)
      | none => none

/-- `isExemptNamespace`: talk-page suffix test `/_talk:/i`, else compare
the namespace part before the first colon, case-insensitively, against
the exemption list.  Titles without a colon are never exempt. -/
def isExemptNamespace (title : String) : Bool :=
  if scanAny (ciStarts "_talk:".data) title.data then true
  else
    match beforeColon title.data with
    | none => false
    | some ns => EXEMPT_NAMESPACES.any (fun e => lowerList ns = lowerList e.data)

/-- The `\s*` separator followed by a literal pipe: `\s*\|` matches iff
the maximal whitespace run is followed by a pipe (a pipe is never
whitespace, so backtracking adds nothing). -/
def pipeAfterWs (l : List Char) : Bool :=
  match l.dropWhile isJsWs with
  | '|' :: _ => true
  | _ => false

/-- Position test of `/\{\{(verified|source)\s*\|/i`. -/
def verifiedAt : List Char → Bool
  | '\x7b' :: '\x7b' :: r =>
    (ciStarts "verified".data r && pipeAfterWs (r.drop 8)) ||
    (ciStarts "source".data r && pipeAfterWs (r.drop 6))
  | _ => false

/-- `isAlreadyVerified`: the fragment contains a `verified` or `source`
template invocation. -/
def isAlreadyVerified (text : String) : Bool :=
  scanAny verifiedAt text.data

/-- Suffix test of `\s*(proposed|unverified)` after the equals sign. -/
def propOrUnver (l : List Char) : Bool :=
  ciStarts "proposed".data (l.dropWhile isJsWs) ||
  ciStarts "unverified".data (l.dropWhile isJsWs)

/-- Position test of `/\|\s*status\s*=\s*(proposed|unverified)/i`. -/
def statusAt : List Char → Bool
  | '|' :: r =>
    let r1 := r.dropWhile isJsWs
    ciStarts "status".data r1 &&
      (match (r1.drop 6).dropWhile isJsWs with
       | '=' :: r3 => propOrUnver r3
       | _ => false)
  | _ => false

/-- `hasVerificationMarkers`: the document contains the wrapper template
or an embedded status field set to proposed or unverified.  NOTE: this
function exists in the source but is never called by the middleware. -/
def hasVerificationMarkers (source : String) : Bool :=
  scanAny (ciStarts "\x7b\x7bbot_proposes".data) source.data ||
  scanAny statusAt source.data

/-- The fixed list of recognized template names. -/
def TEMPLATES_WITH_STATUS : List String :=
  ["Show", "Venue", "Scene", "Artist", "Song", "Album"]

/-- Anchored test of `/^\s*\{\{T\s*[\n|]/i`: the leading whitespace run,
a double opening brace and the template name; then `\s*[\n|]` matches iff
the whitespace run after the name contains a newline, or the first
character past the run is a pipe. -/
def templateOpensWith (source : String) (t : String) : Bool :=
  match source.data.dropWhile isJsWs with
  | '\x7b' :: '\x7b' :: r =>
    if ciStarts (lowerList t.data) r then
      let rest := r.drop t.data.length
      let run := rest.takeWhile isJsWs
      run.contains '\n' ||
        (match rest.drop run.length with
         | '|' :: _ => true
         | _ => false)
    else false
  | _ => false

/-- `getTemplateWithStatus`: the first recognized template the document
opens with, if any. -/
def getTemplateWithStatus (source : String) : Option String :=
  TEMPLATES_WITH_STATUS.find? (templateOpensWith source)

/-- Suffix test of `\s*status\s*=\s*proposed` after a pipe. -/
def proposedTail (r : List Char) : Bool :=
  let r1 := r.dropWhile isJsWs
  ciStarts "status".data r1 &&
    (match (r1.drop 6).dropWhile isJsWs with
     | '=' :: r3 => ciStarts "proposed".data (r3.dropWhile isJsWs)
     | _ => false)

/-- The `[^}]*\|\s*status\s*=\s*proposed` part of the status-detection
regex: walk the brace-free run; at each pipe inside it, try the status
suffix; a closing brace ends the search unconditionally (the pattern
cannot cross the FIRST closing brace, balanced or not). -/
def hasStatusBeforeBrace : List Char → Bool
  | [] => false
  | c :: r =>
    if c = '\x7d' then false
    else if c = '|' then (proposedTail r || hasStatusBeforeBrace r)
    else hasStatusBeforeBrace r

/-- `templateHasProposedStatus`: unanchored search for
`/\{\{T[^}]*\|\s*status\s*=\s*proposed/i` anywhere in the document. -/
def templateHasProposedStatus (source : String) (t : String) : Bool :=
  scanAny
    (fun l =>
      match l with
      | '\x7b' :: '\x7b' :: r =>
        ciStarts (lowerList t.data) r &&
          hasStatusBeforeBrace (r.drop t.data.length)
      | _ => false)
    source.data

/-- Split a character list around its last newline: characters before it
and after it (`\s*\n` backtracks the greedy `\s*` to the last newline of
the whitespace run it is applied to). -/
def lastNlSplit : List Char → Option (List Char × List Char)
  | [] => none
  | c :: r =>
    match lastNlSplit r with
    | some (a, b) => some (c :: a, b)
    | none => if c = '\n' then some ([], r) else none

/-- The anchored replacement site of `/(^\s*\{\{T\s*\n)/i`: leading
whitespace, the braces, the template name as written, then the greedy
`\s*\n`, which matches up to the last newline of the whitespace run after
the name.  Returns the text before the insertion point and after it. -/
def injectPoint (l : List Char) (t : String) : Option (List Char × List Char) :=
  let ws := l.takeWhile isJsWs
  match l.drop ws.length with
  | '\x7b' :: '\x7b' :: r =>
    if ciStarts (lowerList t.data) r then
      let name := r.take t.data.length
      let rest := r.drop t.data.length
      let run := rest.takeWhile isJsWs
      match lastNlSplit run with
      | some (a, b) =>
        some (ws ++ '\x7b' :: '\x7b' :: (name ++ a ++ ['\n']),
              b ++ rest.drop run.length)
      | none => none
    else none
  | _ => none

/-- `injectTemplateStatus`: do nothing when the status-detection regex
already fires; otherwise insert `|status=proposed` right after the
anchored template opening (no insertion happens when the opening is not
followed by a newline). -/
def injectTemplateStatus (source : String) (t : String) : String :=
  if templateHasProposedStatus source t then source
  else
    match injectPoint source.data t with
    | some (pre, post) => ⟨pre ++ "|status=proposed\n".data ++ post⟩
    | none => source

/-- The brace-depth scan of `findTemplateEnd`: consume `{{` and `}}` two
characters at a time, anything else one at a time; report the offset just
past the pair that returns the depth to zero, or nothing if the text runs
out first (the loop stops when fewer than two characters remain). -/
def ftScan : List Char → Nat → Int → Option Nat
  | '\x7b' :: '\x7b' :: rest, pos, depth => ftScan rest (pos + 2) (depth + 1)
  | '\x7d' :: '\x7d' :: rest, pos, depth =>
    if depth - 1 = 0 then some (pos + 2) else ftScan rest (pos + 2) (depth - 1)
  | _ :: rest, pos, depth => ftScan rest (pos + 1) depth
  | [], _, _ => none

/-- Whether the brace-depth scan ever returns to zero: the document has a
balanced double-brace close for the template opening at the given point. -/
def braceCloseExists : List Char → Int → Bool
  | '\x7b' :: '\x7b' :: rest, depth => braceCloseExists rest (depth + 1)
  | '\x7d' :: '\x7d' :: rest, depth =>
    if depth - 1 = 0 then true else braceCloseExists rest (depth - 1)
  | _ :: rest, depth => braceCloseExists rest depth
  | [], _ => false

/-- `findTemplateEnd`: the offset after the balanced closing braces, or
the length of the text when the template never closes. -/
def findTemplateEnd (source : String) (startIndex : Nat) : Nat :=
  match ftScan (source.data.drop startIndex) startIndex 0 with
  | some p => p
  | none => source.data.length

/-- `modified.search(/\{\{/i)`: index of the first double opening brace. -/
def searchBraces : List Char → Nat → Option Nat
  | '\x7b' :: '\x7b' :: _, pos => some pos
  | _ :: t, pos => searchBraces t (pos + 1)
  | [], _ => none

/-- `isNonWrappableLine`: blank lines, headings, category links, template
openings and table syntax pass through the wrapping pass untouched. -/
def isNonWrappableLine (line : String) : Bool :=
  let t := jsTrim line
  t = "" ||
  strStartsWith t "==" ||
  strStartsWith t "[[Category:" ||
  strStartsWith t "\x7b\x7b" ||
  strStartsWith t "|\x7d" ||
  strStartsWith t "\x7b|" ||
  strStartsWith t "|" ||
  strStartsWith t "!"

/-- `isListItem`: the trimmed line starts with a list-marker character. -/
def isListItem (line : String) : Bool :=
  let t := jsTrim line
  strStartsWith t "*" || strStartsWith t "#" ||
  strStartsWith t ":" || strStartsWith t ";"

/-- Full-match test of `/^\[\[[^\]]+\]\]$/`: a double opening bracket, a
non-empty run free of closing brackets, then exactly a double closing
bracket ending the text. -/
def bareWikilink (content : String) : Bool :=
  match content.data with
  | '[' :: '[' :: r =>
    let mid := r.takeWhile (fun c => c ≠ ']')
    decide (mid ≠ []) && decide (r.drop mid.length = [']', ']'])
  | _ => false

/-- Is the character one of the list markers `*#:;`? -/
def isListChar (c : Char) : Bool :=
  c = '*' || c = '#' || c = ':' || c = ';'

/-- The wrapped form of a payload:
`{{Bot_proposes|<escaped>|by=Magent}}`. -/
def wrapParagraph (text : String) : String :=
  "\x7b\x7bBot_proposes|" ++ (⟨escapeChars text.data⟩ : String) ++ "|by=Magent\x7d\x7d"

/-- `wrapListItemContent`: split the trimmed line by
`/^([*#:;]+)\s*(.*)$/` (the greedy marker run, the greedy whitespace run,
the rest; the match fails when the rest would contain a newline, since
`.` does not match one and `$` only matches at the end), then wrap the
payload unless it is empty, already wrapped, already verified, a bare
wikilink, or present in the baseline index. -/
def wrapListItemContent (line : String) (existing : Option (List String)) : String :=
  let trimmed := jsTrim line
  let pre := trimmed.data.takeWhile isListChar
  if pre = [] then line
  else
    let c0 := (trimmed.data.drop pre.length).dropWhile isJsWs
    if c0.contains '\n' then line
    else
      let content : String := ⟨c0⟩
      if content = "" || strStartsWith content "\x7b\x7bBot_proposes" ||
          isAlreadyVerified content then line
      else if bareWikilink content then line
      else
        match existing with
        | some ls =>
          if ls.contains (normalizeLine content) then line
          else (⟨pre⟩ : String) ++ " " ++ wrapParagraph content
        | none => (⟨pre⟩ : String) ++ " " ++ wrapParagraph content

/-- The list-item payload of a line: the group-2 text of the source's
`^([*#:;]+)\s*(.*)$` split of the trimmed line, that is, what follows
the marker run and the whitespace separator (the `content` local of
`wrapListItemContent`). -/
def listItemPayload (line : String) : String :=
  ⟨((jsTrim line).data.drop
      ((jsTrim line).data.takeWhile isListChar).length).dropWhile isJsWs⟩

/-- `flushParagraph`: emit nothing for an empty accumulator; otherwise
join the accumulated lines with single spaces and trim; emit the joined
text unchanged when it is already wrapped, already verified, or present
in the baseline index, and the wrapped form otherwise. -/
def flushEmit (existing : Option (List String)) (para : List String) : List String :=
  match para with
  | [] => []
  | _ :: _ =>
    let text := jsTrim (String.intercalate " " para)
    if text ≠ "" ∧ strStartsWith text "\x7b\x7bBot_proposes" = false ∧
        isAlreadyVerified text = false then
      match existing with
      | some ls =>
        if ls.contains (normalizeLine text) then [text] else [wrapParagraph text]
      | none => [wrapParagraph text]
    else if text ≠ "" then [text] else []

/-- The line loop of `wrapProseWithBotProposes`: structural lines flush
the paragraph and pass through, list items flush and are wrapped
item-wise, prose lines accumulate; the accumulator is flushed at the end. -/
def wrapGo (existing : Option (List String)) (para : List String) :
    List String → List String
  | [] => flushEmit existing para
  | line :: rest =>
    if isNonWrappableLine line then
      flushEmit existing para ++ line :: wrapGo existing [] rest
    else if isListItem line then
      flushEmit existing para ++ wrapListItemContent line existing :: wrapGo existing [] rest
    else wrapGo existing (para ++ [line]) rest

/-- The output lines of the prose-wrapping pass. -/
def wrapProseLines (source : String) (existing : Option (List String)) :
    List String :=
  wrapGo existing [] (splitNl source)

/-- `wrapProseWithBotProposes`: the processed lines joined by newlines. -/
def wrapProseWithBotProposes (source : String) (existing : Option (List String)) :
    String :=
  String.intercalate "\n" (wrapProseLines source existing)

/-- `applyVerification`: on a recognized opening template, inject the
status field, delimit the template with the brace matcher, and wrap only
the prose after it (when there is any); otherwise wrap the whole
document. -/
def applyVerification (source : String) (existingLines : Option (List String)) :
    String :=
  match getTemplateWithStatus source with
  | some template =>
    let modified := injectTemplateStatus source template
    (match searchBraces modified.data 0 with
     | some templateStart =>
       let templateEnd := findTemplateEnd modified templateStart
       let beforeTemplate : String := ⟨modified.data.take templateStart⟩
       let templateContent : String :=
         ⟨(modified.data.drop templateStart).take (templateEnd - templateStart)⟩
       let afterTemplate : String := ⟨modified.data.drop templateEnd⟩
       if jsTrim afterTemplate ≠ "" then
         beforeTemplate ++ templateContent ++
           wrapProseWithBotProposes afterTemplate existingLines
       else modified
     | none => modified)
  | none => wrapProseWithBotProposes source existingLines

/-- The tool kind of an edit. -/
inductive ToolKind where
  | createPage
  | updatePage
deriving DecidableEq

/-- The edit context flowing through the middleware pipeline. -/
structure EditContext where
  tool : ToolKind
  title : String
  source : String
  comment : Option String := none
  contentModel : Option String := none
  latestId : Option Nat := none
deriving DecidableEq

/-- The baseline index used by `onInput`: only update operations with a
truthy base-revision id and a successful fetch (modelled as the optional
`prevSource` argument) produce one. -/
def baselineFor (ctx : EditContext) (prevSource : Option String) :
    Option (List String) :=
  if ctx.tool = ToolKind.updatePage then
    match ctx.latestId with
    | some id => if id ≠ 0 then prevSource.map buildLineSet else none
    | none => none
  else none

/-- `verificationMiddleware.onInput` with the revision fetch supplied as
an argument: exempt titles pass through; otherwise the source is replaced
by the transformed source.  The document is never compared against
`hasVerificationMarkers` here. -/
def onInputModel (ctx : EditContext) (prevSource : Option String) : EditContext :=
  if isExemptNamespace ctx.title then ctx
  else { ctx with source := applyVerification ctx.source (baselineFor ctx prevSource) }

/-- A tool call result: an error flag and an optional list of content
blocks (absent models a missing `content` field). -/
structure ToolResult where
  isError : Bool
  content : Option (List String)
deriving DecidableEq

/-- The advisory note appended by `onOutput`. -/
def verificationNote : String :=
  "⚠️ This edit was automatically marked as \"proposed\" and requires human verification."

/-- `verificationMiddleware.onOutput`: append the advisory note to a
successful result with content when the title is not exempt. -/
def onOutputModel (ctx : EditContext) (result : ToolResult) : ToolResult :=
  if result.isError = false ∧ result.content.isSome ∧
      isExemptNamespace ctx.title = false then
    { result with content := result.content.map (fun c => c ++ [verificationNote]) }
  else result

/-! Helper lemmas about the escape convention of the wrapper. -/

theorem wrapGo_structural_sublist (existing : Option (List String)) :
    ∀ (ls para : List String),
    List.Sublist (ls.filter isNonWrappableLine) (wrapGo existing para ls) := by
  intro ls
  induction ls with
  | nil =>
    intro para
    simp only [List.filter_nil]
    exact List.nil_sublist _
  | cons l rest ih =>
    intro para
    by_cases h : isNonWrappableLine l
    · rw [List.filter_cons_of_pos h]
      rw [show wrapGo existing para (l :: rest) =
            if isNonWrappableLine l then
              flushEmit existing para ++ l :: wrapGo existing [] rest
            else if isListItem l then
              flushEmit existing para ++
                wrapListItemContent l existing :: wrapGo existing [] rest
            else wrapGo existing (para ++ [l]) rest from rfl]
      simp only [h, if_true]
      exact (List.Sublist.cons₂ l (ih [])).trans
        (List.sublist_append_right _ _)
    · rw [List.filter_cons_of_neg (by simpa using h)]
      rw [show wrapGo existing para (l :: rest) =
            if isNonWrappableLine l then
              flushEmit existing para ++ l :: wrapGo existing [] rest
            else if isListItem l then
              flushEmit existing para ++
                wrapListItemContent l existing :: wrapGo existing [] rest
            else wrapGo existing (para ++ [l]) rest from rfl]
      simp only [h]
      by_cases h2 : isListItem l
      · simp only [h2, if_true, Bool.false_eq_true, if_false]
        exact ((ih []).cons _).trans (List.sublist_append_right _ _)
      · simp only [h2, Bool.false_eq_true, if_false]
        exact ih (para ++ [l])

theorem ftScan_none_of_no_close : ∀ (l : List Char) (pos : Nat) (depth : Int),
    braceCloseExists l depth = false → ftScan l pos depth = none := by
  intro l pos depth
  induction l, pos, depth using ftScan.induct with
  | case1 rest pos depth ih =>
    intro h
    rw [show braceCloseExists ('\x7b' :: '\x7b' :: rest) depth =
          braceCloseExists rest (depth + 1) from rfl] at h
    rw [show ftScan ('\x7b' :: '\x7b' :: rest) pos depth =
          ftScan rest (pos + 2) (depth + 1) from rfl]
    exact ih h
  | case2 rest pos depth hz =>
    intro h
    rw [show braceCloseExists ('\x7d' :: '\x7d' :: rest) depth =
          if depth - 1 = 0 then true else braceCloseExists rest (depth - 1) from rfl] at h
    rw [if_pos hz] at h
    cases h
  | case3 rest pos depth hz ih =>
    intro h
    rw [show braceCloseExists ('\x7d' :: '\x7d' :: rest) depth =
          if depth - 1 = 0 then true else braceCloseExists rest (depth - 1) from rfl] at h
    rw [if_neg hz] at h
    rw [show ftScan ('\x7d' :: '\x7d' :: rest) pos depth =
          if depth - 1 = 0 then some (pos + 2) else ftScan rest (pos + 2) (depth - 1) from rfl]
    rw [if_neg hz]
    exact ih h
  | case4 c rest pos depth hn1 hn2 ih =>
    intro h
    have hb : braceCloseExists (c :: rest) depth = braceCloseExists rest depth := by
      rw [braceCloseExists.eq_def]
      split
      · rename_i rest1 heq
        injection heq with e1 e2
        exact ((hn1 rest1 e1 e2)).elim
      · rename_i rest1 heq
        injection heq with e1 e2
        exact ((hn2 rest1 e1 e2)).elim
      · rename_i c' rest1 heq
        injection heq with e1 e2
        rw [e2]
      · rename_i heq
        cases heq
    have hf : ftScan (c :: rest) pos depth = ftScan rest (pos + 1) depth := by
      rw [ftScan.eq_def]
      split
      · rename_i rest1 heq
        injection heq with e1 e2
        exact ((hn1 rest1 e1 e2)).elim
      · rename_i rest1 heq
        injection heq with e1 e2
        exact ((hn2 rest1 e1 e2)).elim
      · rename_i c' rest1 heq
        injection heq with e1 e2
        rw [e2]
      · rename_i heq
        cases heq
    rw [hb] at h
    rw [hf]
    exact ih h
  | case5 pos depth =>
    intro _
    rfl

/-! The claims. -/

/-- C1: the claim says a non-exempt edit whose document already contains
the wrapper invocation or a proposed/unverified status field is returned
unchanged by a short-circuiting already-flagged check.  The code defines
`hasVerificationMarkers` but never calls it: `onInput` always applies
`applyVerification`, which wraps the new prose line of this marker-bearing
document, so the document is modified. -/
theorem C1_marker_short_circuit_missing :
    hasVerificationMarkers "\x7b\x7bBot_proposes|a|by=Magent\x7d\x7d\nNew prose here." = true ∧
    isExemptNamespace "Anything" = false ∧
    (onInputModel
      { tool := ToolKind.createPage, title := "Anything",
        source := "\x7b\x7bBot_proposes|a|by=Magent\x7d\x7d\nNew prose here." }
      none).source ≠
      "\x7b\x7bBot_proposes|a|by=Magent\x7d\x7d\nNew prose here." := by
  refine ⟨by decide, by decide, by decide⟩

/-- C2: the claim says the transform is idempotent.  On the document
`{{Show\n}}\nx {{Show|status=proposed}}` the first pass finds a
status=proposed after a `{{Show` occurrence (in the trailing prose), so
it injects nothing, but wrapping escapes the prose pipes; on the second
pass the status detector no longer fires and `|status=proposed` is
injected into the leading template, so transform∘transform ≠ transform. -/
theorem C2_transform_not_idempotent :
    applyVerification
        (applyVerification
          "\x7b\x7bShow\n\x7d\x7d\nx \x7b\x7bShow|status=proposed\x7d\x7d" none)
        none ≠
      applyVerification
        "\x7b\x7bShow\n\x7d\x7d\nx \x7b\x7bShow|status=proposed\x7d\x7d" none := by
  decide

/-- C3: the claim says that when the opening template already carries a
status=proposed field anywhere before its balanced closing brace, no
insertion happens.  The detection regex stops at the FIRST closing brace
of the text, so a nested template (`|name={{x}}`) placed before the
status field blinds it: the detector returns false and a second
status=proposed field is inserted into a template that already has one
(the balanced close, per the brace matcher, is the end of the document). -/
theorem C3_status_detector_blind_behind_nested_braces :
    getTemplateWithStatus
        "\x7b\x7bShow\n|name=\x7b\x7bx\x7d\x7d\n|status=proposed\n\x7d\x7d" = some "Show" ∧
    findTemplateEnd
        "\x7b\x7bShow\n|name=\x7b\x7bx\x7d\x7d\n|status=proposed\n\x7d\x7d" 0 =
      "\x7b\x7bShow\n|name=\x7b\x7bx\x7d\x7d\n|status=proposed\n\x7d\x7d".data.length ∧
    templateHasProposedStatus
        "\x7b\x7bShow\n|name=\x7b\x7bx\x7d\x7d\n|status=proposed\n\x7d\x7d" "Show" = false ∧
    injectTemplateStatus
        "\x7b\x7bShow\n|name=\x7b\x7bx\x7d\x7d\n|status=proposed\n\x7d\x7d" "Show" =
      "\x7b\x7bShow\n|status=proposed\n|name=\x7b\x7bx\x7d\x7d\n|status=proposed\n\x7d\x7d" := by
  refine ⟨by decide, by decide, by decide, by decide⟩

/-- C4: the claim says a document opening with a recognized template
followed by a newline OR a same-line field separator gets status=proposed
inserted as the first field.  The injection regex demands a newline after
the template name, so in the pipe case (`{{Show|name=X}}`, recognized and
without a status field) nothing at all is inserted and the transform
returns the document unchanged. -/
theorem C4_pipe_separator_gets_no_injection :
    getTemplateWithStatus "\x7b\x7bShow|name=X\x7d\x7d" = some "Show" ∧
    templateHasProposedStatus "\x7b\x7bShow|name=X\x7d\x7d" "Show" = false ∧
    injectTemplateStatus "\x7b\x7bShow|name=X\x7d\x7d" "Show" = "\x7b\x7bShow|name=X\x7d\x7d" ∧
    applyVerification "\x7b\x7bShow|name=X\x7d\x7d" none = "\x7b\x7bShow|name=X\x7d\x7d" := by
  refine ⟨by decide, by decide, by decide, by decide⟩

/-- C5: content whose normalized text is present in the supplied
baseline index is emitted unwrapped, on both wrappable paths: a prose
paragraph is emitted by the paragraph flush as its joined trimmed text
with no wrapper added, and a list-item line whose payload is in the
index is returned by the list-item wrapper byte-identical (no wrapper
added around its payload). -/
theorem C5_baseline_content_stays_unwrapped (b : List String) :
    (∀ (para : List String),
      jsTrim (String.intercalate " " para) ≠ "" →
      b.contains (normalizeLine (jsTrim (String.intercalate " " para))) = true →
      flushEmit (some b) para = [jsTrim (String.intercalate " " para)]) ∧
    (∀ (line : String),
      b.contains (normalizeLine (listItemPayload line)) = true →
      wrapListItemContent line (some b) = line) := by
  constructor
  · intro para h1 h2
    cases para with
    | nil => exact absurd (by decide) h1
    | cons p ps =>
      by_cases hsw : strStartsWith (jsTrim (String.intercalate " " (p :: ps)))
          "\x7b\x7bBot_proposes" = false
      · by_cases hv : isAlreadyVerified (jsTrim (String.intercalate " " (p :: ps))) = false
        · simp only [flushEmit]
          rw [if_pos ⟨h1, hsw, hv⟩]
          rw [if_pos h2]
        · simp only [flushEmit]
          rw [if_neg (by
            intro hcond
            exact hv hcond.2.2)]
          rw [if_pos h1]
      · simp only [flushEmit]
        rw [if_neg (by
          intro hcond
          exact hsw hcond.2.1)]
        rw [if_pos h1]
  · intro line h
    unfold listItemPayload at h
    simp only [wrapListItemContent]
    repeat' split
    all_goals try rfl

/-- C5 witness: a baseline-present paragraph and a baseline-present
list-item payload, both emitted unwrapped. -/
theorem C5_baseline_content_stays_unwrapped_witness :
    flushEmit (some ["Local band played a show."]) ["Local band played a show."] =
      ["Local band played a show."] ∧
    wrapListItemContent "* Local venue hosted us" (some ["Local venue hosted us"]) =
      "* Local venue hosted us" := by
  constructor
  · have h := (C5_baseline_content_stays_unwrapped ["Local band played a show."]).1
      ["Local band played a show."] (by decide) (by decide)
    simpa using h
  · exact (C5_baseline_content_stays_unwrapped ["Local venue hosted us"]).2
      "* Local venue hosted us" (by decide)

/-- C7: every input line classified structural by `isNonWrappableLine`
(blank, heading, category link, template opening, table syntax) appears
byte-identical, in order, among the output lines of the prose-wrapping
pass: the structural lines of the input form a sublist of the output. -/
theorem C7_structural_lines_pass_through (source : String)
    (existing : Option (List String)) :
    List.Sublist ((splitNl source).filter isNonWrappableLine)
      (wrapProseLines source existing) :=
  wrapGo_structural_sublist existing (splitNl source) []

/-- C8: for an exempt title, the input stage returns the edit context
unchanged whatever the document, and the output stage adds no note. -/
theorem C8_exempt_title_untouched (ctx : EditContext) (prev : Option String)
    (res : ToolResult) (h : isExemptNamespace ctx.title = true) :
    onInputModel ctx prev = ctx ∧ onOutputModel ctx res = res := by
  constructor
  · simp [onInputModel, h]
  · simp [onOutputModel, h]

/-- C8 witness. -/
theorem C8_exempt_title_untouched_witness :
    onInputModel
        { tool := ToolKind.createPage, title := "Talk:Foo",
          source := "arbitrary content" } none =
      { tool := ToolKind.createPage, title := "Talk:Foo",
        source := "arbitrary content" } ∧
    onOutputModel
        { tool := ToolKind.createPage, title := "Talk:Foo",
          source := "arbitrary content" }
        { isError := false, content := some ["ok"] } =
      { isError := false, content := some ["ok"] } :=
  C8_exempt_title_untouched _ none _ (by decide)

/-- C9: when the brace scan never returns to depth zero, the brace
matcher returns the length of the text; consequently, in the transform,
the template is treated as extending to the end of the document and the
text after it (empty) is not wrapped: the transform returns exactly the
injection result. -/
theorem C9_unterminated_template_tolerated :
    (∀ (text : String) (start : Nat),
        braceCloseExists (text.data.drop start) 0 = false →
        findTemplateEnd text start = text.data.length) ∧
    (∀ (s T : String) (b : Option (List String)) (st : Nat),
        getTemplateWithStatus s = some T →
        searchBraces (injectTemplateStatus s T).data 0 = some st →
        braceCloseExists ((injectTemplateStatus s T).data.drop st) 0 = false →
        applyVerification s b = injectTemplateStatus s T) := by
  constructor
  · intro text start h
    unfold findTemplateEnd
    rw [ftScan_none_of_no_close _ start 0 h]
  · intro s T b st h1 h2 h3
    have hend : findTemplateEnd (injectTemplateStatus s T) st =
        (injectTemplateStatus s T).data.length := by
      unfold findTemplateEnd
      rw [ftScan_none_of_no_close _ st 0 h3]
    unfold applyVerification
    rw [h1]
    simp only [h2, hend, List.drop_length]
    rw [if_neg (by
      intro hcon
      exact hcon rfl)]

/-- C9 witness. -/
theorem C9_unterminated_template_tolerated_witness :
    findTemplateEnd "\x7b\x7bShow\n|a=1" 0 = 11 ∧
    applyVerification "\x7b\x7bShow\n|a=1" none =
      injectTemplateStatus "\x7b\x7bShow\n|a=1" "Show" := by
  constructor
  · exact (C9_unterminated_template_tolerated.1 "\x7b\x7bShow\n|a=1" 0
      (by decide)).trans (by decide)
  · exact C9_unterminated_template_tolerated.2 "\x7b\x7bShow\n|a=1" "Show" none 0
      (by decide) (by decide) (by decide)

/-- C10: a prose paragraph that is skipped from wrapping (already
wrapped, already verified, or present in the baseline index) is still
emitted as its lines joined by single spaces and trimmed, not as the
original bytes. -/
theorem C10_skipped_paragraph_emitted_joined_trimmed
    (existing : Option (List String)) (para : List String)
    (h1 : jsTrim (String.intercalate " " para) ≠ "")
    (hskip :
      strStartsWith (jsTrim (String.intercalate " " para)) "\x7b\x7bBot_proposes" = true ∨
      isAlreadyVerified (jsTrim (String.intercalate " " para)) = true ∨
      (∃ ls, existing = some ls ∧
        ls.contains (normalizeLine (jsTrim (String.intercalate " " para))) = true)) :
    flushEmit existing para = [jsTrim (String.intercalate " " para)] := by
  cases para with
  | nil => exact absurd (by decide) h1
  | cons p ps =>
    rcases hskip with hsw | hv | ⟨ls, hex, hcont⟩
    · simp only [flushEmit]
      rw [if_neg (by
        intro hcond
        rw [hsw] at hcond
        exact absurd hcond.2.1 (by decide))]
      rw [if_pos h1]
    · simp only [flushEmit]
      rw [if_neg (by
        intro hcond
        rw [hv] at hcond
        exact absurd hcond.2.2 (by decide))]
      rw [if_pos h1]
    · subst hex
      by_cases hsw : strStartsWith (jsTrim (String.intercalate " " (p :: ps)))
          "\x7b\x7bBot_proposes" = false
      · by_cases hv : isAlreadyVerified (jsTrim (String.intercalate " " (p :: ps))) = false
        · simp only [flushEmit]
          rw [if_pos ⟨h1, hsw, hv⟩]
          rw [if_pos hcont]
        · simp only [flushEmit]
          rw [if_neg (by
            intro hcond
            exact hv hcond.2.2)]
          rw [if_pos h1]
      · simp only [flushEmit]
        rw [if_neg (by
          intro hcond
          exact hsw hcond.2.1)]
        rw [if_pos h1]

/-- C10 witness: a skipped (already verified) two-line paragraph is
emitted as one joined trimmed line. -/
theorem C10_skipped_paragraph_emitted_joined_trimmed_witness :
    flushEmit none ["already \x7b\x7bverified|src\x7d\x7d claim", "  second line  "] =
      ["already \x7b\x7bverified|src\x7d\x7d claim   second line"] := by
  have h := C10_skipped_paragraph_emitted_joined_trimmed none
    ["already \x7b\x7bverified|src\x7d\x7d claim", "  second line  "]
    (by decide) (Or.inr (Or.inl (by decide)))
  simpa using h

end Verif
